import Mathlib

/-!
Shallow embedding of the IGC glider-trace library (glidertrace.py): the
coordinate codec, header parser, flight/trace/task parsing, continuity
check and distance computation, together with theorems settling the
specification claims.

Python strings are modelled as Lean `String` (lists of characters); Python
slice notation `s[a:b]` with possibly negative indices is modelled by
`pySlice`; Python `int()` / `float()` applied to the fixed-width digit
fields of an IGC record are modelled by `parseInt?` / `parseFloat?`
(optional sign followed by decimal digits); numeric values are exact
rationals standing for the Python floats.  Fallible code returns
`Except Err`.
-/

namespace Gliding

/-- Error conditions raised by the Python code: `UserWarning` for the
invalid-hemisphere-letter case (the spec's FormatError), `ValueError` for
failing `int()`/`float()`/`datetime` conversions and the empty `max()`,
`IndexError` for indexing an empty string, the inconsistent-lengths
`UserWarning` of `Task.__init__`, and the over-2km-step `UserWarning` of
`Trace.check_points` (the spec's DataQualityWarning). -/
inductive Err where
  | formatError
  | valueError
  | indexError
  | inconsistentLengths
  | dataQualityWarning
deriving DecidableEq, Repr

instance {ε α : Type _} [DecidableEq ε] [DecidableEq α] : DecidableEq (Except ε α) := fun a b =>
  match a, b with
  | .error e, .error f =>
      if h : e = f then isTrue (congrArg Except.error h)
      else isFalse (fun hh => h (Except.error.inj hh))
  | .error _, .ok _ => isFalse (fun hh => Except.noConfusion hh)
  | .ok _, .error _ => isFalse (fun hh => Except.noConfusion hh)
  | .ok x, .ok y =>
      if h : x = y then isTrue (congrArg Except.ok h)
      else isFalse (fun hh => h (Except.ok.inj hh))

/-- Normalise a Python slice index against length `n`: negative indices
count from the end, and the result is clamped to `[0, n]`. -/
def pyIdx (n : Nat) (i : Int) : Nat :=
  if i < 0 then (i + n).toNat else min i.toNat n

/-- Python `l[a:b]` on a list. -/
def pySliceL {α : Type _} (l : List α) (a b : Int) : List α :=
  (l.take (pyIdx l.length b)).drop (pyIdx l.length a)

/-- Python `s[a:b]` on a string. -/
def pySlice (s : String) (a b : Int) : String :=
  ⟨pySliceL s.data a b⟩

/-- Python `s[a:]` on a string. -/
def pySliceFrom (s : String) (a : Int) : String :=
  ⟨s.data.drop (pyIdx s.data.length a)⟩

/-- Python `line.startswith(c)` for a single character `c`. -/
def firstCharIs (l : String) (c : Char) : Bool :=
  l.data.head? = some c

/-- Numeric value of a list of decimal digit characters. -/
def digitsVal (l : List Char) : Nat :=
  l.foldl (fun a c => 10 * a + (c.toNat - 48)) 0

/-- Python `int(s)` on the fixed-width fields of an IGC record: optional
leading minus sign followed by decimal digits; `none` models `ValueError`. -/
def parseInt? (s : String) : Option Int :=
  match s.data with
  | [] => none
  | a :: rest =>
    if a = '-' then
      if rest.isEmpty then none
      else if rest.all (·.isDigit) then some (-(digitsVal rest : Int)) else none
    else if (a :: rest).all (·.isDigit) then some ((digitsVal (a :: rest) : Int)) else none

/-- Python `float(s)` on the fixed-width fields of an IGC record (which
carry no decimal point): optional leading minus sign followed by decimal
digits; `none` models `ValueError`. -/
def parseFloat? (s : String) : Option ℚ :=
  match s.data with
  | [] => none
  | a :: rest =>
    if a = '-' then
      if rest.isEmpty then none
      else if rest.all (·.isDigit) then some (-(digitsVal rest : ℚ)) else none
    else if (a :: rest).all (·.isDigit) then some ((digitsVal (a :: rest) : ℚ)) else none

/-- Body of `fixtofloat` once the trailing hemisphere letter `c` and the
two sliced digit fields are in hand: `degS` is `fixstring[0:-6]`, `minS`
is `fixstring[-6:-1]`. -/
def fixtofloatAux (c : Char) (degS minS : String) : Except Err ℚ :=
  if c = 'N' ∨ c = 'E' then
    match parseFloat? degS, parseFloat? minS with
    | some d, some m => .ok (d + m / 60000)
    | _, _ => .error .valueError
  else if c = 'S' ∨ c = 'W' then
    match parseFloat? degS, parseFloat? minS with
    | some d, some m => .ok (-(d + m / 60000))
    | _, _ => .error .valueError
  else .error .formatError

/-- `fixtofloat` from `GliderFlight.__init__` (glidertrace.py lines
224-230): degrees from `fixstring[0:-6]`, thousandths of minutes from
`fixstring[-6:-1]`, sign from the trailing hemisphere letter
`fixstring[-1]`; a trailing letter outside N/E/S/W raises `UserWarning`
("Invalid latlon format", the spec's FormatError). -/
def fixtofloat (s : String) : Except Err ℚ :=
  match s.data.getLast? with
  | none => .error .indexError
  | some c => fixtofloatAux c (pySlice s 0 (-6)) (pySlice s (-6) (-1))

/-- The latitude digits of the token `"5205012N"`, used as the concrete
input of the claim-1 witness. -/
def degTokenW : List Char := ['5', '2', '0', '5', '0', '1', '2']

/-- Header fields recognised by `header_dict`: the values of
`HEADER_KEYS = ['pilot', 'type', 'reg', 'compno', 'date']`. -/
inductive HKey where
  | pilot
  | gtype
  | reg
  | compno
  | date
deriving DecidableEq, Repr

/-- A header value: a stripped string, or a `datetime.date` (year, month,
day). -/
inductive HVal where
  | str : String → HVal
  | date : Int → Int → Int → HVal
deriving DecidableEq, Repr

/-- `dict(zip(HEADER_FLAGS, HEADER_KEYS)).get(line[0:5])`: maps the
5-character flag of a header line to its field key. -/
def headKey? (s : String) : Option HKey :=
  match s.data with
  | ['H', 'F', 'P', 'L', 'T'] => some HKey.pilot
  | ['H', 'F', 'G', 'T', 'Y'] => some HKey.gtype
  | ['H', 'F', 'G', 'I', 'D'] => some HKey.reg
  | ['H', 'F', 'C', 'I', 'D'] => some HKey.compno
  | ['H', 'F', 'D', 'T', 'E'] => some HKey.date
  | _ => none

/-- Gregorian leap-year rule used by `datetime.date`. -/
def isLeap (y : Int) : Bool :=
  decide (y % 4 = 0 ∧ (y % 100 ≠ 0 ∨ y % 400 = 0))

def daysInMonth (y m : Int) : Int :=
  if m = 2 then (if isLeap y then 29 else 28)
  else if m = 4 ∨ m = 6 ∨ m = 9 ∨ m = 11 then 30 else 31

/-- Validity check performed by the `datetime.date(year, month, day)`
constructor; failure models its `ValueError`. -/
def dateValid (y m d : Int) : Bool :=
  decide (1 ≤ y ∧ y ≤ 9999 ∧ 1 ≤ m ∧ m ≤ 12 ∧ 1 ≤ d ∧ d ≤ daysInMonth y m)

/-- The two-digit-year expansion of `header_dict` (glidertrace.py lines
131-133): `year = 2000 + int(line[9:11]); if year > today().year: year -= 100`. -/
def decodeYear (curYear yy : Int) : Int :=
  if 2000 + yy > curYear then 2000 + yy - 100 else 2000 + yy

/-- Split a character list at every occurrence of `c` (Python
`str.split` with a one-character separator). -/
def splitOnChar (c : Char) : List Char → List (List Char)
  | [] => [[]]
  | x :: xs =>
    match splitOnChar c xs, decide (x = c) with
    | r, true => [] :: r
    | [], false => [[x]]
    | y :: ys, false => (x :: y) :: ys

/-- Python `line.split(':')`. -/
def colonSplit (l : String) : List String :=
  (splitOnChar ':' l.data).map (fun cs => ⟨cs⟩)

/-- The characters Python `str.strip()` removes. -/
def isSpaceChar (c : Char) : Bool :=
  c = ' ' ∨ c = '\t' ∨ c = '\n' ∨ c = '\r' ∨ c = '\x0b' ∨ c = '\x0c'

/-- Python `s.strip()`. -/
def pyStrip (s : String) : String :=
  ⟨((s.data.dropWhile isSpaceChar).reverse.dropWhile isSpaceChar).reverse⟩

/-- `header_dict` (glidertrace.py lines 124-145) with the wall clock's
current year passed explicitly: converts one header line into (at most
one) key/value pair; an unrecognised flag yields no pair; a recognised
non-date flag whose line does not split into exactly two `:`-separated
parts raises `UserWarning` ("Invalid key=value data", a FormatError); an
empty stripped value yields no pair. -/
def headerDict (curYear : Int) (line : String) : Except Err (List (HKey × HVal)) :=
  match headKey? (pySlice line 0 5) with
  | none => .ok []
  | some HKey.date =>
    match parseInt? (pySlice line 9 11) with
    | none => .error .valueError
    | some yy =>
      match parseInt? (pySlice line 7 9), parseInt? (pySlice line 5 7) with
      | some mo, some dy =>
          if dateValid (decodeYear curYear yy) mo dy then
            .ok [(HKey.date, HVal.date (decodeYear curYear yy) mo dy)]
          else .error .valueError
      | _, _ => .error .valueError
  | some k =>
    match colonSplit line with
    | [_, v] =>
        if (pyStrip v).length > 0 then .ok [(k, HVal.str (pyStrip v))] else .ok []
    | _ => .error .formatError

/-- Python `dict` single-key update: replace the value of an existing key
in place, otherwise append the pair (insertion order preserved). -/
def dUpdate {κ ν : Type _} [DecidableEq κ] (d : List (κ × ν)) (k : κ) (v : ν) : List (κ × ν) :=
  if d.any (fun p => p.1 = k) then d.map (fun p => if p.1 = k then (k, v) else p)
  else d ++ [(k, v)]

/-- Python `d.update(kvs)`. -/
def dictUpdateAll {κ ν : Type _} [DecidableEq κ] (d : List (κ × ν)) (kvs : List (κ × ν)) :
    List (κ × ν) :=
  kvs.foldl (fun d p => dUpdate d p.1 p.2) d

/-- A Python dict built by successive single-pair updates of `{}`. -/
def buildDict {κ ν : Type _} [DecidableEq κ] (ps : List (κ × ν)) : List (κ × ν) :=
  dictUpdateAll [] ps

/-- Python `d.get(k)` on the association-list model of a dict. -/
def lookupA {κ ν : Type _} [DecidableEq κ] : List (κ × ν) → κ → Option ν
  | [], _ => none
  | (k, v) :: rest, q => if k = q then some v else lookupA rest q

/-- Python `reg[-3:]`. -/
def regSuffix (r : String) : String :=
  ⟨r.data.drop (pyIdx r.data.length (-3))⟩

/-- The epilogue of `read_headers` (glidertrace.py lines 163-164):
`if headers.get('reg'): headers.setdefault('compno', headers['reg'][-3:])`;
`setdefault` appends at the end only when the key is absent. -/
def finalizeHeaders (hs : List (HKey × HVal)) : List (HKey × HVal) :=
  match lookupA hs HKey.reg with
  | some (HVal.str r) =>
      if r.length ≠ 0 then
        match lookupA hs HKey.compno with
        | none => hs ++ [(HKey.compno, HVal.str (regSuffix r))]
        | some _ => hs
      else hs
  | _ => hs

/-- Structural model of the `read_headers` loop (glidertrace.py lines
148-165) over the file's list of raw lines (line terminators included):
an `H` line updates the dict and records the resume position
(`head_last`) right after itself; a non-`H` line is skipped while the
dict is empty, and otherwise ends the loop with a seek back to
`head_last` — which at that moment is exactly the current line, since the
first non-`H` line after the dict becomes non-empty terminates the loop.
`none` models the case in which the loop reaches end of file with an
empty dict and then spins forever on the empty strings `readline`
returns there (see `readHeadersFuel` for the step-indexed version). -/
def readHeadersAux (curYear : Int) : List String → List (HKey × HVal) →
    Option (Except Err (List (HKey × HVal) × List String))
  | [], hs =>
      if hs.isEmpty then none
      else some (.ok (finalizeHeaders hs, []))
  | l :: rest, hs =>
    if firstCharIs l 'H' then
      match headerDict curYear l with
      | .error e => some (.error e)
      | .ok kvs => readHeadersAux curYear rest (dictUpdateAll hs kvs)
    else if hs.isEmpty then readHeadersAux curYear rest hs
    else some (.ok (finalizeHeaders hs, l :: rest))

/-- `read_headers` on a fresh file handle. -/
def readHeaders (curYear : Int) (lines : List String) :
    Option (Except Err (List (HKey × HVal) × List String)) :=
  readHeadersAux curYear lines []

/-- Python `ifp.readline()` as a function of the line index: past the end
of the file it returns the empty string forever. -/
def readline (lines : List String) (pos : Nat) : String :=
  lines.getD pos ⟨[]⟩

/-- Step-indexed model of the `while True` loop of `read_headers`: `fuel`
bounds the number of iterations observed, `pos` is the index of the next
line `readline` will return, `hs` the headers dict, `hlast` the recorded
`head_last` resume index.  `none` means the loop has not returned within
`fuel` iterations.  The `hlast = none` return branch is unreachable (a
non-empty dict implies an `H` line was read, which set `head_last`);
Python would raise `NameError` there, modelled as an error. -/
def readHeadersFuel (curYear : Int) (lines : List String) :
    Nat → Nat → List (HKey × HVal) → Option Nat →
    Option (Except Err (List (HKey × HVal) × Nat))
  | 0, _, _, _ => none
  | fuel + 1, pos, hs, hlast =>
    if firstCharIs (readline lines pos) 'H' then
      match headerDict curYear (readline lines pos) with
      | .error e => some (.error e)
      | .ok kvs => readHeadersFuel curYear lines fuel (pos + 1) (dictUpdateAll hs kvs) (some (pos + 1))
    else if hs.isEmpty then readHeadersFuel curYear lines fuel (pos + 1) hs hlast
    else
      match hlast with
      | some hl => some (.ok (finalizeHeaders hs, hl))
      | none => some (.error .valueError)

/-- Concrete date header lines for the claim-5 theorem: 1 January,
two-digit years 99 and 24. -/
def hfdteLineA : String := "HFDTE010199"

def hfdteLineB : String := "HFDTE010124"

/-- A one-line file with no header line at all, for the claim-10
witness. -/
def wNoHeader : List String := ["B123"]

/-- `METRETOFOOT = 3.28` (as an exact rational). -/
def METRETOFOOT : ℚ := 328 / 100

/-- One decoded B (position) record: `datetime.time` fields, latitude and
longitude in decimal degrees, pressure and GPS altitude in feet. -/
structure Fix where
  h : Int
  mi : Int
  s : Int
  lat : ℚ
  lon : ℚ
  alt : ℚ
  gpsalt : ℚ
deriving DecidableEq, Repr

/-- Validity check of the `datetime.time(h, m, s)` constructor. -/
def timeValid (h mi s : Int) : Bool :=
  decide (0 ≤ h ∧ h < 24 ∧ 0 ≤ mi ∧ mi < 60 ∧ 0 ≤ s ∧ s < 60)

/-- Decoding of one B line by the loop of `GliderFlight.__init__`
(glidertrace.py lines 235-241): time from `line[1:3]`, `line[3:5]`,
`line[5:7]`; latitude from `line[7:15]` and longitude from `line[15:24]`
via `fixtofloat`; pressure and GPS altitude from `line[25:30]` and
`line[30:35]`, converted to feet. -/
def decodeB (line : String) : Except Err Fix :=
  match parseInt? (pySlice line 1 3), parseInt? (pySlice line 3 5), parseInt? (pySlice line 5 7) with
  | some h, some mi, some s =>
    if timeValid h mi s then
      match fixtofloat (pySlice line 7 15) with
      | .error e => .error e
      | .ok la =>
        match fixtofloat (pySlice line 15 24) with
        | .error e => .error e
        | .ok lo =>
          match parseFloat? (pySlice line 25 30), parseFloat? (pySlice line 30 35) with
          | some a, some g => .ok ⟨h, mi, s, la, lo, a * METRETOFOOT, g * METRETOFOOT⟩
          | _, _ => .error .valueError
    else .error .valueError
  | _, _, _ => .error .valueError

/-- Decoding of one turnpoint-declaration C line (glidertrace.py lines
247-249): latitude from `line[1:9]`, longitude from `line[9:18]`, name
from `line[18:-2]`; returns (latitude, longitude, name). -/
def decodeC (line : String) : Except Err (ℚ × ℚ × String) :=
  match fixtofloat (pySlice line 1 9) with
  | .error e => .error e
  | .ok la =>
    match fixtofloat (pySlice line 9 18) with
    | .error e => .error e
    | .ok lo => .ok (la, lo, pySlice line 18 (-2))

/-- The mutable locals of the `GliderFlight.__init__` parse loop: the
trace accumulation lists, the provisional turnpoint lists, and the
`declared` flag. -/
structure BState where
  times : List (Int × Int × Int)
  alt : List ℚ
  gpsalt : List ℚ
  lat : List ℚ
  lon : List ℚ
  tpNames : List String
  tpLat : List ℚ
  tpLon : List ℚ
  declared : Bool
deriving DecidableEq, Repr

def initB : BState := ⟨[], [], [], [], [], [], [], [], false⟩

/-- One iteration of the `for line in ifp` loop of
`GliderFlight.__init__` (glidertrace.py lines 234-249): a B line appends
one sample to each trace list; a C line (unless `skip_declaration`) is
either the first such line (declaration date, only sets `declared`) or a
turnpoint declaration appended to the provisional lists; other lines are
ignored. -/
def bodyStep (skip : Bool) (st : BState) (line : String) : Except Err BState :=
  if firstCharIs line 'B' then
    match decodeB line with
    | .error e => .error e
    | .ok f => .ok { st with
        times := st.times ++ [(f.h, f.mi, f.s)],
        lat := st.lat ++ [f.lat],
        lon := st.lon ++ [f.lon],
        alt := st.alt ++ [f.alt],
        gpsalt := st.gpsalt ++ [f.gpsalt] }
  else if firstCharIs line 'C' && !skip then
    if !st.declared then .ok { st with declared := true }
    else
      match decodeC line with
      | .error e => .error e
      | .ok t => .ok { st with
          tpLat := st.tpLat ++ [t.1],
          tpLon := st.tpLon ++ [t.2.1],
          tpNames := st.tpNames ++ [t.2.2] }
  else .ok st

/-- The parse loop run from an arbitrary intermediate state. -/
def parseBodyFrom (skip : Bool) (st : BState) : List String → Except Err BState
  | [] => .ok st
  | l :: rest =>
    match bodyStep skip st l with
    | .error e => .error e
    | .ok st1 => parseBodyFrom skip st1 rest

/-- The parse loop of `GliderFlight.__init__` over the lines that remain
after `read_headers`. -/
def parseBody (skip : Bool) (lines : List String) : Except Err BState :=
  parseBodyFrom skip initB lines

/-- Sequential decoding of a list of lines, failing at the first failing
line; used to state which decoded records the parse accumulates. -/
def mapEx {α β : Type _} (f : α → Except Err β) : List α → Except Err (List β)
  | [] => .ok []
  | a :: rest =>
    match f a with
    | .error e => .error e
    | .ok b =>
      match mapEx f rest with
      | .error e => .error e
      | .ok bs => .ok (b :: bs)

/-- `Task` (glidertrace.py lines 66-98): the ordered turnpoint code list
and the code-to-coordinate dict.  `barrels` is always left at its default
`False` by `GliderFlight.__init__`, so `geoms` stays `[]` and is omitted.
`lookupTP` stands for `locate_turnpoints` (which reads the external BGA
turnpoint file, not part of this repository's sources). -/
structure TaskM where
  names : List String
  latlon : List (String × (ℚ × ℚ))
deriving DecidableEq, Repr

/-- `Task.__init__` (glidertrace.py lines 72-87): with a non-empty code
list, a truthy (non-`None`, non-empty) explicit coordinate list of a
different length raises `UserWarning` ("... inconsistent lengths"); equal
lengths build the dict pairwise; a falsy coordinate list resolves the
codes through the turnpoint file (`lookupTP`); an empty code list builds
an empty task. -/
def taskInit (lookupTP : List String → List (String × (ℚ × ℚ)))
    (turnpointList : List String) (latlonList : Option (List (ℚ × ℚ))) :
    Except Err TaskM :=
  if turnpointList.length ≠ 0 then
    match latlonList with
    | some ll =>
      if ll.isEmpty then .ok ⟨turnpointList, lookupTP turnpointList⟩
      else if turnpointList.length ≠ ll.length then .error .inconsistentLengths
      else .ok ⟨turnpointList, buildDict (turnpointList.zip ll)⟩
    | none => .ok ⟨turnpointList, lookupTP turnpointList⟩
  else .ok ⟨turnpointList, []⟩

/-- `Trace` as populated by `GliderFlight.__init__`: per-sample times and
altitudes, and the path geometry `LineString(zip(lon, lat))` as its list
of (lon, lat) vertices. -/
structure TraceM where
  times : List (Int × Int × Int)
  alt : List ℚ
  gpsalt : List ℚ
  latlon : List (ℚ × ℚ)
deriving DecidableEq, Repr

structure FlightM where
  headers : List (HKey × HVal)
  trace : TraceM
  task : TaskM
deriving DecidableEq, Repr

/-- Python `l[1:-1]`. -/
def pyInterior {α : Type _} (l : List α) : List α := pySliceL l 1 (-1)

/-- `GliderFlight.__init__` (glidertrace.py lines 215-255): read the
headers, run the parse loop on the remaining lines, build the trace
geometry `LineString(zip(lon, lat))` (shapely rejects a single-point
line string, modelled as an error), and build the task from the interior
(`[1:-1]`) turnpoint declarations when a declaration was seen, otherwise
an empty `Task()`.  `none` propagates a non-terminating `read_headers`. -/
def gliderFlightAfterHeaders (lookupTP : List String → List (String × (ℚ × ℚ)))
    (hs : List (HKey × HVal)) (skip : Bool) (rest : List String) : Except Err FlightM :=
  match parseBody skip rest with
  | .error e => .error e
  | .ok st =>
    if st.lon.length = 1 then .error .valueError
    else
      match (if st.declared then
               taskInit lookupTP (pyInterior st.tpNames)
                 (some ((pyInterior st.tpLon).zip (pyInterior st.tpLat)))
             else taskInit lookupTP [] none) with
      | .error e => .error e
      | .ok task => .ok ⟨hs, ⟨st.times, st.alt, st.gpsalt, st.lon.zip st.lat⟩, task⟩

def gliderFlight (curYear : Int) (lookupTP : List String → List (String × (ℚ × ℚ)))
    (lines : List String) (skip : Bool) : Option (Except Err FlightM) :=
  match readHeaders curYear lines with
  | none => none
  | some (.error e) => some (.error e)
  | some (.ok (hs, rest)) => some (gliderFlightAfterHeaders lookupTP hs skip rest)


/-- A trivially-empty stand-in for the external turnpoint-file lookup,
used by the concrete witnesses (never consulted on their inputs). -/
def lk0 : List String → List (String × (ℚ × ℚ)) := fun _ => []

/-- Concrete witness file lines (raw lines, terminators included). -/
def wH : String := "HFPLTPILOT:Me\n"

def wB1 : String := "B1010105205012N00325012WA0010000100\n"

def wB2 : String := "B1010205205012N00325012WA0010000100\n"

def wCd : String := "C\n"

def wC1 : String := "C5205012N00325012WAA1\n"

def wC2 : String := "C5205012N00325012WBB1\n"

def wC3 : String := "C5205012N00325012WCC1\n"

def wC4 : String := "C5205012N00325012WDD1\n"

/-- A two-fix file with one header line and no declaration. -/
def wFile : List String := [wH, wB1, wB2]

/-- A file with a declaration block of one date line and four turnpoint
lines, followed by two position lines. -/
def wDeclFile : List String := [wH, wCd, wC1, wC2, wC3, wC4, wB1, wB2]

def wLat : ℚ := 52 + 5012 / 60000

def wLon : ℚ := -(3 + 25012 / 60000)

def wHs : List (HKey × HVal) := [(HKey.pilot, HVal.str "Me")]

def wRest : List String := [wB1, wB2]

def wRestD : List String := [wCd, wC1, wC2, wC3, wC4, wB1, wB2]

def wTrace : TraceM :=
  ⟨[(10, 10, 10), (10, 10, 20)], [328, 328], [328, 328], [(wLon, wLat), (wLon, wLat)]⟩

/-- The flight parsed from `wFile` (and from `wDeclFile` with
declarations skipped). -/
def wFlight : FlightM := ⟨wHs, wTrace, ⟨[], []⟩⟩

/-- The flight parsed from `wDeclFile`. -/
def wFlightDecl : FlightM :=
  ⟨wHs, wTrace, ⟨["BB", "CC"], [("BB", (wLon, wLat)), ("CC", (wLon, wLat))]⟩⟩



/-- Squared planar distance between two projected points.
`Trace.check_points` compares `sqrt(dx^2 + dy^2)` with 2000; since the
square root is strictly monotone on non-negatives, comparing the squared
distance with `2000 ^ 2` is the same test in exact arithmetic. -/
def distSq (p q : ℚ × ℚ) : ℚ := (p.1 - q.1) ^ 2 + (p.2 - q.2) ^ 2

/-- `numpy` `.max()` of a 1-d array: `ValueError` on an empty array. -/
def npMax : List ℚ → Except Err ℚ
  | [] => .error .valueError
  | x :: xs => .ok (xs.foldl max x)

/-- Squared distances between consecutive points of a polyline
(`eastings[1:] - eastings[:-1]` and `northings[1:] - northings[:-1]`,
squared and summed elementwise). -/
def stepDistSqsL : List (ℚ × ℚ) → List ℚ
  | [] => []
  | [_] => []
  | p :: q :: rest => distSq p q :: stepDistSqsL (q :: rest)

/-- The squared consecutive-vertex steps of a trace in the projected
planar frame; `proj` stands for the `GEOM_CRS.transform_points`
projection of `Trace.os_points`. -/
def stepDistSqs (proj : ℚ × ℚ → ℚ × ℚ) (tr : TraceM) : List ℚ :=
  stepDistSqsL (tr.latlon.map proj)

/-- `Trace.check_points` (glidertrace.py lines 58-63): raises
`UserWarning` ("Probable data error.  Over 2km in one step.") exactly
when the largest consecutive step exceeds 2000 m; pure — the trace is
not modified, the condition is raised to the caller, and the parse loop
of `GliderFlight.__init__` never invokes it. -/
def checkPoints (proj : ℚ × ℚ → ℚ × ℚ) (tr : TraceM) : Except Err Unit :=
  match npMax (stepDistSqs proj tr) with
  | .error e => .error e
  | .ok m => if m > 2000 ^ 2 then .error .dataQualityWarning else .ok ()

/-- Euclidean length of one projected segment (in the planar frame). -/
noncomputable def segLen (p q : ℚ × ℚ) : ℝ := Real.sqrt ((distSq p q : ℝ))

/-- The length contributed by appending one point after a polyline:
zero for an empty polyline, else the segment from its last point. -/
noncomputable def tailSegLen (xs : List (ℚ × ℚ)) (a : ℚ × ℚ) : ℝ :=
  match xs.getLast? with
  | none => 0
  | some p => segLen p a

/-- Length of a polyline: the sum of its segment lengths, as computed by
shapely on `LineString(os_points)`. -/
noncomputable def pathLength : List (ℚ × ℚ) → ℝ
  | [] => 0
  | [_] => 0
  | p :: q :: rest => segLen p q + pathLength (q :: rest)

/-- `Trace.distance` (glidertrace.py lines 51-56): length of the path
projected into the planar frame, in km. -/
noncomputable def distance (proj : ℚ × ℚ → ℚ × ℚ) (tr : TraceM) : ℝ :=
  pathLength (tr.latlon.map proj) / 1000

/-- Two-point trace with a 5000 m step, for the claim-6 witness. -/
def wBadTrace : TraceM := ⟨[], [], [], [(0, 0), (5000, 0)]⟩

/-- A closed-loop trace and its reversal, for the claim-9 witness. -/
def wLoopTrace : TraceM := ⟨[], [], [], [(0, 0), (1, 0), (0, 1), (0, 0)]⟩

def wLoopTraceR : TraceM := ⟨[], [], [], [(0, 0), (0, 1), (1, 0), (0, 0)]⟩

end Gliding

namespace Gliding

theorem fixtofloat_eq_aux (s : String) (c : Char) (h : s.data.getLast? = some c) :
    fixtofloat s = fixtofloatAux c (pySlice s 0 (-6)) (pySlice s (-6) (-1)) := by
  unfold fixtofloat
  rw [h]

theorem pySliceL_concat_deg (ds : List Char) (c : Char) (h : 6 ≤ ds.length) :
    pySliceL (ds ++ [c]) 0 (-6) = ds.take (ds.length - 5) := by
  have hn : (ds ++ [c]).length = ds.length + 1 := by simp
  have h1 : pyIdx (ds.length + 1) (-6) = ds.length - 5 := by
    simp only [pyIdx]
    rw [if_pos (by norm_num)]
    omega
  have h2 : pyIdx (ds.length + 1) 0 = 0 := by
    simp [pyIdx]
  rw [pySliceL, hn, h1, h2, List.drop_zero, List.take_append_of_le_length (by omega)]

theorem pySliceL_concat_min (ds : List Char) (c : Char) (h : 6 ≤ ds.length) :
    pySliceL (ds ++ [c]) (-6) (-1) = ds.drop (ds.length - 5) := by
  have hn : (ds ++ [c]).length = ds.length + 1 := by simp
  have h1 : pyIdx (ds.length + 1) (-6) = ds.length - 5 := by
    simp only [pyIdx]
    rw [if_pos (by norm_num)]
    omega
  have h2 : pyIdx (ds.length + 1) (-1) = ds.length := by
    simp only [pyIdx]
    rw [if_pos (by norm_num)]
    omega
  rw [pySliceL, hn, h1, h2, List.take_append_of_le_length (le_refl _), List.take_length]

theorem parseFloat?_digits (l : List Char) (h0 : l ≠ []) (hd : ∀ x ∈ l, x.isDigit) :
    parseFloat? ⟨l⟩ = some ((digitsVal l : ℚ)) := by
  match l, h0 with
  | a :: rest, _ =>
    have ha : a.isDigit := hd a (List.mem_cons_self a rest)
    have hne : ¬(a = '-') := by
      intro hh
      rw [hh] at ha
      exact absurd ha (by decide)
    show parseFloat? ⟨a :: rest⟩ = _
    have hall : (a :: rest).all (·.isDigit) = true :=
      List.all_eq_true.mpr (fun x hx => hd x hx)
    simp only [parseFloat?]
    rw [if_neg hne, if_pos hall]

theorem fixtofloat_digits_pos (ds : List Char) (c : Char)
    (hdig : ∀ x ∈ ds, x.isDigit) (hlen : 6 ≤ ds.length) (hc : c = 'N' ∨ c = 'E') :
    fixtofloat ⟨ds ++ [c]⟩ =
      .ok ((digitsVal (ds.take (ds.length - 5)) : ℚ) +
           (digitsVal (ds.drop (ds.length - 5)) : ℚ) / 60000) := by
  have hdata : (⟨ds ++ [c]⟩ : String).data = ds ++ [c] := rfl
  rw [fixtofloat_eq_aux _ c (by rw [hdata]; exact List.getLast?_concat ds)]
  have hdeg : pySlice ⟨ds ++ [c]⟩ 0 (-6) = ⟨ds.take (ds.length - 5)⟩ := by
    rw [pySlice, hdata, pySliceL_concat_deg ds c hlen]
  have hmin : pySlice ⟨ds ++ [c]⟩ (-6) (-1) = ⟨ds.drop (ds.length - 5)⟩ := by
    rw [pySlice, hdata, pySliceL_concat_min ds c hlen]
  rw [fixtofloatAux, if_pos hc, hdeg, hmin]
  rw [parseFloat?_digits _ (by
        intro hh
        have := congrArg List.length hh
        simp [List.length_take] at this
        omega)
      (fun x hx => hdig x (List.mem_of_mem_take hx))]
  rw [parseFloat?_digits _ (by
        intro hh
        have := congrArg List.length hh
        simp [List.length_drop] at this
        omega)
      (fun x hx => hdig x (List.mem_of_mem_drop hx))]

theorem fixtofloat_digits_neg (ds : List Char) (c : Char)
    (hdig : ∀ x ∈ ds, x.isDigit) (hlen : 6 ≤ ds.length) (hc : c = 'S' ∨ c = 'W') :
    fixtofloat ⟨ds ++ [c]⟩ =
      .ok (-((digitsVal (ds.take (ds.length - 5)) : ℚ) +
           (digitsVal (ds.drop (ds.length - 5)) : ℚ) / 60000)) := by
  have hdata : (⟨ds ++ [c]⟩ : String).data = ds ++ [c] := rfl
  rw [fixtofloat_eq_aux _ c (by rw [hdata]; exact List.getLast?_concat ds)]
  have hdeg : pySlice ⟨ds ++ [c]⟩ 0 (-6) = ⟨ds.take (ds.length - 5)⟩ := by
    rw [pySlice, hdata, pySliceL_concat_deg ds c hlen]
  have hmin : pySlice ⟨ds ++ [c]⟩ (-6) (-1) = ⟨ds.drop (ds.length - 5)⟩ := by
    rw [pySlice, hdata, pySliceL_concat_min ds c hlen]
  have hne : ¬(c = 'N' ∨ c = 'E') := by
    rcases hc with h | h
    all_goals
      rw [h]
      decide
  rw [fixtofloatAux, if_neg hne, if_pos hc, hdeg, hmin]
  rw [parseFloat?_digits _ (by
        intro hh
        have := congrArg List.length hh
        simp [List.length_take] at this
        omega)
      (fun x hx => hdig x (List.mem_of_mem_take hx))]
  rw [parseFloat?_digits _ (by
        intro hh
        have := congrArg List.length hh
        simp [List.length_drop] at this
        omega)
      (fun x hx => hdig x (List.mem_of_mem_drop hx))]

/-- C1: for every fixed-width coordinate token of at least six digits
followed by a hemisphere letter, `fixtofloat` returns
degrees + minutes/60000 where degrees is formed by all digits except the
last 5 and minutes by the last 5 digits before the letter, positive for
N/E and negated for S/W; in particular `"5205012N"` decodes to
52 + 5012/60000 and `"00325012W"` to -(3 + 25012/60000). -/
theorem claim1_coordinate_codec (ds : List Char) (c : Char)
    (hdig : ∀ x ∈ ds, x.isDigit) (hlen : 6 ≤ ds.length) :
    ((c = 'N' ∨ c = 'E') →
      fixtofloat ⟨ds ++ [c]⟩ =
        .ok ((digitsVal (ds.take (ds.length - 5)) : ℚ) +
             (digitsVal (ds.drop (ds.length - 5)) : ℚ) / 60000)) ∧
    ((c = 'S' ∨ c = 'W') →
      fixtofloat ⟨ds ++ [c]⟩ =
        .ok (-((digitsVal (ds.take (ds.length - 5)) : ℚ) +
             (digitsVal (ds.drop (ds.length - 5)) : ℚ) / 60000))) ∧
    fixtofloat ⟨['5', '2', '0', '5', '0', '1', '2', 'N']⟩ = .ok (52 + 5012 / 60000) ∧
    fixtofloat ⟨['0', '0', '3', '2', '5', '0', '1', '2', 'W']⟩ = .ok (-(3 + 25012 / 60000)) :=
  ⟨fixtofloat_digits_pos ds c hdig hlen, fixtofloat_digits_neg ds c hdig hlen,
   by rfl, by rfl⟩

/-- Witness for C1 at the concrete token `"5205012N"`. -/
theorem claim1_coordinate_codec_witness :
    fixtofloat ⟨degTokenW ++ ['N']⟩ =
      .ok ((digitsVal (degTokenW.take (degTokenW.length - 5)) : ℚ) +
           (digitsVal (degTokenW.drop (degTokenW.length - 5)) : ℚ) / 60000) :=
  (claim1_coordinate_codec degTokenW 'N' (by decide) (by decide)).1 (Or.inl rfl)

/-- C7: decoding a fixed-width coordinate token whose trailing character
is none of N, S, E, W fails with the FormatError (`UserWarning` "Invalid
latlon format"). -/
theorem claim7_invalid_hemisphere (s : String) (c : Char)
    (hlast : s.data.getLast? = some c)
    (hN : c ≠ 'N') (hS : c ≠ 'S') (hE : c ≠ 'E') (hW : c ≠ 'W') :
    fixtofloat s = .error .formatError := by
  rw [fixtofloat_eq_aux s c hlast, fixtofloatAux,
     if_neg (fun h => h.elim hN hE), if_neg (fun h => h.elim hS hW)]

/-- Witness for C7 at the concrete token `"5205012X"`. -/
theorem claim7_invalid_hemisphere_witness :
    fixtofloat ⟨['5', '2', '0', '5', '0', '1', '2', 'X']⟩ = .error .formatError :=
  claim7_invalid_hemisphere _ 'X' (by decide) (by decide) (by decide) (by decide) (by decide)

/-- C5: whenever `header_dict` accepts a date header line, the decoded
year is 2000 + YY, rolled back by 100 exactly when 2000 + YY exceeds the
current year; with current year 2024, year digits 99 decode to 1999 and
year digits 24 decode to 2024. -/
theorem claim5_year_decoding (cur : Int) (line : String) (yy : Int)
    (kvs : List (HKey × HVal))
    (hkey : headKey? (pySlice line 0 5) = some HKey.date)
    (hyy : parseInt? (pySlice line 9 11) = some yy)
    (hok : headerDict cur line = .ok kvs) :
    (∃ mo dy, kvs =
      [(HKey.date, HVal.date (if 2000 + yy > cur then 2000 + yy - 100 else 2000 + yy) mo dy)]) ∧
    headerDict 2024 hfdteLineA = .ok [(HKey.date, HVal.date 1999 1 1)] ∧
    headerDict 2024 hfdteLineB = .ok [(HKey.date, HVal.date 2024 1 1)] := by
  refine ⟨?_, by rfl, by rfl⟩
  unfold headerDict at hok
  rw [hkey, hyy] at hok
  cases hmo : parseInt? (pySlice line 7 9) with
  | none =>
      rw [hmo] at hok
      exact absurd hok (by intro hh; cases hh)
  | some mo =>
      cases hdy : parseInt? (pySlice line 5 7) with
      | none =>
          rw [hmo, hdy] at hok
          exact absurd hok (by intro hh; cases hh)
      | some dy =>
          rw [hmo, hdy] at hok
          have hok2 : (if dateValid (decodeYear cur yy) mo dy = true then
                (Except.ok [(HKey.date, HVal.date (decodeYear cur yy) mo dy)] :
                  Except Err (List (HKey × HVal)))
              else Except.error Err.valueError) = Except.ok kvs := hok
          by_cases hv : dateValid (decodeYear cur yy) mo dy = true
          · rw [if_pos hv] at hok2
            refine ⟨mo, dy, ?_⟩
            have hy : decodeYear cur yy =
                (if 2000 + yy > cur then 2000 + yy - 100 else 2000 + yy) := rfl
            rw [← hy]
            exact (Except.ok.inj hok2).symm
          · rw [if_neg hv] at hok2
            exact absurd hok2 (by intro hh; cases hh)

/-- Witness for C5 at the concrete line `"HFDTE010199"` with current year
2024. -/
theorem claim5_year_decoding_witness :
    (∃ mo dy, ([(HKey.date, HVal.date 1999 1 1)] : List (HKey × HVal)) =
      [(HKey.date, HVal.date (if 2000 + 99 > (2024 : Int) then 2000 + 99 - 100 else 2000 + 99) mo dy)]) ∧
    headerDict 2024 hfdteLineA = .ok [(HKey.date, HVal.date 1999 1 1)] ∧
    headerDict 2024 hfdteLineB = .ok [(HKey.date, HVal.date 2024 1 1)] :=
  claim5_year_decoding 2024 hfdteLineA 99 [(HKey.date, HVal.date 1999 1 1)]
    (by rfl) (by rfl) (by rfl)

/-- C10: on a file none of whose lines yields a recognised header field,
the `read_headers` loop never returns: whatever the number of iterations
observed (`fuel`) and the starting line index, the step-indexed loop has
not produced a result — at end of file it keeps reading empty strings
with an empty headers dict, so it spins forever. -/
theorem claim10_read_headers_divergence (curYear : Int) (lines : List String)
    (h : ∀ l ∈ lines, firstCharIs l 'H' = true → headerDict curYear l = .ok []) :
    ∀ fuel pos, readHeadersFuel curYear lines fuel pos [] none = none := by
  suffices hgen : ∀ fuel pos hlast, readHeadersFuel curYear lines fuel pos [] hlast = none by
    intro fuel pos
    exact hgen fuel pos none
  intro fuel
  induction fuel with
  | zero => intro pos hlast; rfl
  | succ n ih =>
    intro pos hlast
    by_cases hH : firstCharIs (readline lines pos) 'H' = true
    · have hline : readline lines pos ∈ lines := by
        by_cases hp : pos < lines.length
        · rw [readline, lines.getD_eq_getElem ⟨[]⟩ hp]
          exact lines.getElem_mem hp
        · exfalso
          rw [readline, lines.getD_eq_default ⟨[]⟩ (by omega)] at hH
          exact absurd hH (by decide)
      have hd := h _ hline hH
      simp only [readHeadersFuel]
      rw [if_pos hH, hd]
      exact ih (pos + 1) (some (pos + 1))
    · simp only [readHeadersFuel]
      rw [if_neg hH]
      exact ih (pos + 1) hlast

/-- Witness for C10: a file whose single line is a position record
(`"B123"`) makes the header loop spin; observed for 7 iterations from the
start of the file. -/
theorem claim10_read_headers_divergence_witness :
    readHeadersFuel 2024 wNoHeader 7 0 [] none = none :=
  claim10_read_headers_divergence 2024 wNoHeader
    (by
      intro l hl hH
      have : l = wNoHeader.headI := by
        cases hl with
        | head => rfl
        | tail _ hh => cases hh
      rw [this] at hH ⊢
      exact absurd hH (by decide))
    7 0

end Gliding

namespace Gliding

theorem firstCharIs_ne (l : String) (c d : Char) (hcd : c ≠ d)
    (h : firstCharIs l c = true) : firstCharIs l d = false := by
  rw [firstCharIs] at h ⊢
  rcases hh : l.data.head? with _ | x
  · rw [hh] at h; cases h
  · rw [hh] at h
    have hx : x = c := Option.some.inj (of_decide_eq_true h)
    subst hx
    simp only [decide_eq_false_iff_not]
    intro hsome
    exact hcd (Option.some.inj hsome)

theorem filter_cons_pos {p : String → Bool} (l : String) (rest : List String)
    (h : p l = true) : List.filter p (l :: rest) = l :: List.filter p rest := by
  rw [List.filter_cons, if_pos h]

theorem filter_cons_neg {p : String → Bool} (l : String) (rest : List String)
    (h : ¬(p l = true)) : List.filter p (l :: rest) = List.filter p rest := by
  rw [List.filter_cons, if_neg h]

theorem parseBodyFrom_trace (skip : Bool) : ∀ (lines : List String) (st st' : BState),
    parseBodyFrom skip st lines = .ok st' →
    ∃ fixes, mapEx decodeB (lines.filter (fun s => firstCharIs s 'B')) = .ok fixes ∧
      st'.times = st.times ++ fixes.map (fun x => (x.h, x.mi, x.s)) ∧
      st'.lat = st.lat ++ fixes.map Fix.lat ∧
      st'.lon = st.lon ++ fixes.map Fix.lon ∧
      st'.alt = st.alt ++ fixes.map Fix.alt ∧
      st'.gpsalt = st.gpsalt ++ fixes.map Fix.gpsalt := by
  intro lines
  induction lines with
  | nil =>
    intro st st' h
    have hst : st = st' := Except.ok.inj h
    subst hst
    exact ⟨[], rfl, by simp, by simp, by simp, by simp, by simp⟩
  | cons l rest ih =>
    intro st st' h
    rw [parseBodyFrom] at h
    cases hb : bodyStep skip st l with
    | error e => rw [hb] at h; cases h
    | ok st1 =>
      rw [hb] at h
      obtain ⟨fixes, hmap, ht, hla, hlo, hal, hgp⟩ := ih st1 st' h
      by_cases hB : firstCharIs l 'B' = true
      · rw [bodyStep, if_pos hB] at hb
        cases hd : decodeB l with
        | error e => rw [hd] at hb; cases hb
        | ok f =>
          rw [hd] at hb
          have hst1 := (Except.ok.inj hb).symm
          rw [filter_cons_pos l rest hB]
          refine ⟨f :: fixes, ?_, ?_, ?_, ?_, ?_, ?_⟩
          · rw [mapEx, hd, hmap]
          · rw [ht, hst1]
            simp
          · rw [hla, hst1]
            simp
          · rw [hlo, hst1]
            simp
          · rw [hal, hst1]
            simp
          · rw [hgp, hst1]
            simp
      · have h1 : st1.times = st.times ∧ st1.lat = st.lat ∧ st1.lon = st.lon ∧
            st1.alt = st.alt ∧ st1.gpsalt = st.gpsalt := by
          rw [bodyStep, if_neg hB] at hb
          by_cases hC : (firstCharIs l 'C' && !skip) = true
          · rw [if_pos hC] at hb
            by_cases hdcl : (!st.declared) = true
            · rw [if_pos hdcl] at hb
              have hst1 := (Except.ok.inj hb).symm
              rw [hst1]
              exact ⟨rfl, rfl, rfl, rfl, rfl⟩
            · rw [if_neg hdcl] at hb
              cases hc : decodeC l with
              | error e => rw [hc] at hb; cases hb
              | ok t =>
                rw [hc] at hb
                have hst1 := (Except.ok.inj hb).symm
                rw [hst1]
                exact ⟨rfl, rfl, rfl, rfl, rfl⟩
          · rw [if_neg hC] at hb
            have hst1 := (Except.ok.inj hb).symm
            rw [hst1]
            exact ⟨rfl, rfl, rfl, rfl, rfl⟩
        rw [filter_cons_neg l rest hB]
        exact ⟨fixes, hmap, by rw [ht, h1.1], by rw [hla, h1.2.1], by rw [hlo, h1.2.2.1],
               by rw [hal, h1.2.2.2.1], by rw [hgp, h1.2.2.2.2]⟩

end Gliding

namespace Gliding

theorem parseBodyFrom_decl : ∀ (lines : List String) (st st' : BState),
    parseBodyFrom false st lines = .ok st' →
    (st.declared = true →
      ∃ tps, mapEx decodeC (lines.filter (fun s => firstCharIs s 'C')) = .ok tps ∧
        st'.declared = true ∧
        st'.tpNames = st.tpNames ++ tps.map (fun t => t.2.2) ∧
        st'.tpLat = st.tpLat ++ tps.map (fun t => t.1) ∧
        st'.tpLon = st.tpLon ++ tps.map (fun t => t.2.1)) ∧
    (st.declared = false →
      (lines.filter (fun s => firstCharIs s 'C') = [] ∧ st'.declared = false ∧
         st'.tpNames = st.tpNames ∧ st'.tpLat = st.tpLat ∧ st'.tpLon = st.tpLon) ∨
      (∃ tps, mapEx decodeC ((lines.filter (fun s => firstCharIs s 'C')).drop 1) = .ok tps ∧
         st'.declared = true ∧
         st'.tpNames = st.tpNames ++ tps.map (fun t => t.2.2) ∧
         st'.tpLat = st.tpLat ++ tps.map (fun t => t.1) ∧
         st'.tpLon = st.tpLon ++ tps.map (fun t => t.2.1))) := by
  intro lines
  induction lines with
  | nil =>
    intro st st' h
    have hst : st = st' := Except.ok.inj h
    subst hst
    constructor
    · intro hdc
      exact ⟨[], rfl, hdc, by simp, by simp, by simp⟩
    · intro hdc
      exact Or.inl ⟨rfl, hdc, rfl, rfl, rfl⟩
  | cons l rest ih =>
    intro st st' h
    rw [parseBodyFrom] at h
    cases hb : bodyStep false st l with
    | error e => rw [hb] at h; cases h
    | ok st1 =>
      rw [hb] at h
      by_cases hB : firstCharIs l 'B' = true
      · -- B line: tp fields and declared flag untouched
        rw [bodyStep, if_pos hB] at hb
        cases hd : decodeB l with
        | error e => rw [hd] at hb; cases hb
        | ok f =>
          rw [hd] at hb
          have hst1 := (Except.ok.inj hb).symm
          have hCl : firstCharIs l 'C' = false := firstCharIs_ne l 'B' 'C' (by decide) hB
          rw [filter_cons_neg l rest (by rw [hCl]; intro hh; cases hh)]
          obtain ⟨ih1, ih2⟩ := ih st1 st' h
          constructor
          · intro hdc
            obtain ⟨tps, hmap, hd', hn, hlaa, hloo⟩ := ih1 (by rw [hst1]; exact hdc)
            exact ⟨tps, hmap, hd', by rw [hn, hst1], by rw [hlaa, hst1], by rw [hloo, hst1]⟩
          · intro hdc
            rcases ih2 (by rw [hst1]; exact hdc) with ⟨hfe, hd', hn, hlaa, hloo⟩ | ⟨tps, hmap, hd', hn, hlaa, hloo⟩
            · exact Or.inl ⟨hfe, hd', by rw [hn, hst1], by rw [hlaa, hst1], by rw [hloo, hst1]⟩
            · exact Or.inr ⟨tps, hmap, hd', by rw [hn, hst1], by rw [hlaa, hst1], by rw [hloo, hst1]⟩
      · rw [bodyStep, if_neg hB] at hb
        have hcond : (firstCharIs l 'C' && !false) = firstCharIs l 'C' := by simp
        rw [hcond] at hb
        by_cases hCl : firstCharIs l 'C' = true
        · rw [if_pos hCl] at hb
          rw [filter_cons_pos l rest hCl]
          by_cases hdcl : (!st.declared) = true
          · have hsd : st.declared = false := by
              cases hq : st.declared
              · rfl
              · rw [hq] at hdcl
                exact absurd hdcl (by decide)
            rw [if_pos hdcl] at hb
            have hst1 := (Except.ok.inj hb).symm
            obtain ⟨ih1, _⟩ := ih st1 st' h
            obtain ⟨tps, hmap, hd', hn, hlaa, hloo⟩ := ih1 (by rw [hst1])
            constructor
            · intro hdc
              rw [hdc] at hsd
              cases hsd
            · intro _
              exact Or.inr ⟨tps, hmap, hd', by rw [hn, hst1], by rw [hlaa, hst1], by rw [hloo, hst1]⟩
          · have hsd : st.declared = true := by
              cases hq : st.declared
              · rw [hq] at hdcl
                exact absurd (by decide) hdcl
              · rfl
            rw [if_neg hdcl] at hb
            cases hc : decodeC l with
            | error e => rw [hc] at hb; cases hb
            | ok t =>
              rw [hc] at hb
              have hst1 := (Except.ok.inj hb).symm
              obtain ⟨ih1, _⟩ := ih st1 st' h
              obtain ⟨tps, hmap, hd', hn, hlaa, hloo⟩ := ih1 (by rw [hst1]; exact hsd)
              constructor
              · intro _
                refine ⟨t :: tps, ?_, hd', ?_, ?_, ?_⟩
                · rw [mapEx, hc, hmap]
                · rw [hn, hst1]
                  simp
                · rw [hlaa, hst1]
                  simp
                · rw [hloo, hst1]
                  simp
              · intro hdc
                rw [hdc] at hsd
                cases hsd
        · rw [if_neg hCl] at hb
          have hst1 : st = st1 := Except.ok.inj hb
          subst hst1
          rw [filter_cons_neg l rest hCl]
          exact ih st st' h

theorem parseBodyFrom_skip_true : ∀ (lines : List String) (st st' : BState),
    parseBodyFrom true st lines = .ok st' →
    st'.declared = st.declared ∧ st'.tpNames = st.tpNames ∧
    st'.tpLat = st.tpLat ∧ st'.tpLon = st.tpLon := by
  intro lines
  induction lines with
  | nil =>
    intro st st' h
    have hst : st = st' := Except.ok.inj h
    subst hst
    exact ⟨rfl, rfl, rfl, rfl⟩
  | cons l rest ih =>
    intro st st' h
    rw [parseBodyFrom] at h
    cases hb : bodyStep true st l with
    | error e => rw [hb] at h; cases h
    | ok st1 =>
      rw [hb] at h
      have h1 : st1.declared = st.declared ∧ st1.tpNames = st.tpNames ∧
          st1.tpLat = st.tpLat ∧ st1.tpLon = st.tpLon := by
        rw [bodyStep] at hb
        by_cases hB : firstCharIs l 'B' = true
        · rw [if_pos hB] at hb
          cases hd : decodeB l with
          | error e => rw [hd] at hb; cases hb
          | ok f =>
            rw [hd] at hb
            have hst1 := (Except.ok.inj hb).symm
            rw [hst1]
            exact ⟨rfl, rfl, rfl, rfl⟩
        · rw [if_neg hB] at hb
          have hcond : (firstCharIs l 'C' && !true) = false := by simp
          rw [hcond] at hb
          rw [if_neg (by intro hh; cases hh)] at hb
          have hst1 := (Except.ok.inj hb).symm
          rw [hst1]
          exact ⟨rfl, rfl, rfl, rfl⟩
      obtain ⟨a, b, c, d⟩ := ih st1 st' h
      exact ⟨by rw [a, h1.1], by rw [b, h1.2.1], by rw [c, h1.2.2.1], by rw [d, h1.2.2.2]⟩

end Gliding

namespace Gliding

theorem mapEx_ok_length {α β : Type _} (f : α → Except Err β) :
    ∀ (l : List α) (bs : List β), mapEx f l = .ok bs → bs.length = l.length := by
  intro l
  induction l with
  | nil =>
    intro bs h
    have : ([] : List β) = bs := Except.ok.inj h
    rw [← this]
    rfl
  | cons a rest ih =>
    intro bs h
    rw [mapEx] at h
    cases hf : f a with
    | error e => rw [hf] at h; cases h
    | ok b =>
      rw [hf] at h
      cases hm : mapEx f rest with
      | error e => rw [hm] at h; cases h
      | ok bs' =>
        rw [hm] at h
        have : b :: bs' = bs := Except.ok.inj h
        rw [← this, List.length_cons, ih bs' hm]
        rfl

theorem pySliceL_map {α β : Type _} (f : α → β) (l : List α) (a b : Int) :
    pySliceL (l.map f) a b = (pySliceL l a b).map f := by
  rw [pySliceL, pySliceL, List.length_map, ← List.map_take, ← List.map_drop]

theorem pyInterior_map {α β : Type _} (f : α → β) (l : List α) :
    pyInterior (l.map f) = (pyInterior l).map f := by
  rw [pyInterior, pyInterior, pySliceL_map]

theorem pyInterior_length {α : Type _} (l : List α) :
    (pyInterior l).length = l.length - 2 := by
  rw [pyInterior, pySliceL, List.length_drop, List.length_take]
  rcases l with _ | ⟨x, xs⟩
  · rfl
  · rw [pyIdx, pyIdx]
    rw [if_pos (by norm_num)]
    rw [if_neg (by norm_num)]
    simp only [List.length_cons]
    omega

theorem gliderFlight_ok_elim (curYear : Int)
    (lookupTP : List String → List (String × (ℚ × ℚ)))
    (lines : List String) (skip : Bool) (hs : List (HKey × HVal))
    (rest : List String) (f : FlightM)
    (hrh : readHeaders curYear lines = some (.ok (hs, rest)))
    (hf : gliderFlight curYear lookupTP lines skip = some (.ok f)) :
    ∃ st, parseBody skip rest = .ok st ∧
      ¬(st.lon.length = 1) ∧
      f.headers = hs ∧
      f.trace = ⟨st.times, st.alt, st.gpsalt, st.lon.zip st.lat⟩ ∧
      (if st.declared then
         taskInit lookupTP (pyInterior st.tpNames)
           (some ((pyInterior st.tpLon).zip (pyInterior st.tpLat)))
       else taskInit lookupTP [] none) = .ok f.task := by
  rw [gliderFlight, hrh] at hf
  have hf2 : gliderFlightAfterHeaders lookupTP hs skip rest = .ok f := Option.some.inj hf
  rw [gliderFlightAfterHeaders] at hf2
  cases hpb : parseBody skip rest with
  | error e =>
    rw [hpb] at hf2
    cases hf2
  | ok st =>
    rw [hpb] at hf2
    have hf3 : (if st.lon.length = 1 then (Except.error Err.valueError : Except Err FlightM)
        else
          match (if st.declared then
                   taskInit lookupTP (pyInterior st.tpNames)
                     (some ((pyInterior st.tpLon).zip (pyInterior st.tpLat)))
                 else taskInit lookupTP [] none) with
          | Except.error e => Except.error e
          | Except.ok task =>
              Except.ok ⟨hs, ⟨st.times, st.alt, st.gpsalt, st.lon.zip st.lat⟩, task⟩) =
        Except.ok f := hf2
    by_cases hl1 : st.lon.length = 1
    · rw [if_pos hl1] at hf3
      cases hf3
    · rw [if_neg hl1] at hf3
      cases htask : (if st.declared then
          taskInit lookupTP (pyInterior st.tpNames)
            (some ((pyInterior st.tpLon).zip (pyInterior st.tpLat)))
        else taskInit lookupTP [] none) with
      | error e =>
        rw [htask] at hf3
        cases hf3
      | ok task =>
        rw [htask] at hf3
        have hfe : (⟨hs, ⟨st.times, st.alt, st.gpsalt, st.lon.zip st.lat⟩, task⟩ : FlightM) = f :=
          Except.ok.inj hf3
        refine ⟨st, rfl, hl1, ?_, ?_, ?_⟩
        · rw [← hfe]
        · rw [← hfe]
        · rw [htask, ← hfe]

/-- C3: parsing a file whose post-header section has N position (B)
lines yields a trace whose path geometry, times, pressure-altitude and
GPS-altitude sequences each have exactly N entries, index-aligned, in
file order, with values decoded from the i-th B line. -/
theorem claim3_trace_lengths_aligned (curYear : Int)
    (lookupTP : List String → List (String × (ℚ × ℚ)))
    (lines : List String) (skip : Bool) (hs : List (HKey × HVal))
    (rest : List String) (f : FlightM)
    (hrh : readHeaders curYear lines = some (.ok (hs, rest)))
    (hf : gliderFlight curYear lookupTP lines skip = some (.ok f)) :
    ∃ fixes, mapEx decodeB (rest.filter (fun s => firstCharIs s 'B')) = .ok fixes ∧
      f.trace.times = fixes.map (fun x => (x.h, x.mi, x.s)) ∧
      f.trace.latlon = fixes.map (fun x => (x.lon, x.lat)) ∧
      f.trace.alt = fixes.map Fix.alt ∧
      f.trace.gpsalt = fixes.map Fix.gpsalt ∧
      f.trace.times.length = (rest.filter (fun s => firstCharIs s 'B')).length ∧
      f.trace.latlon.length = (rest.filter (fun s => firstCharIs s 'B')).length ∧
      f.trace.alt.length = (rest.filter (fun s => firstCharIs s 'B')).length ∧
      f.trace.gpsalt.length = (rest.filter (fun s => firstCharIs s 'B')).length := by
  obtain ⟨st, hpb, hl1, hhd, htr, htk⟩ :=
    gliderFlight_ok_elim curYear lookupTP lines skip hs rest f hrh hf
  obtain ⟨fixes, hmap, ht, hla, hlo, hal, hgp⟩ := parseBodyFrom_trace skip rest initB st hpb
  have hlen := mapEx_ok_length decodeB _ fixes hmap
  have htimes : f.trace.times = fixes.map (fun x => (x.h, x.mi, x.s)) := by
    rw [htr]
    show st.times = _
    rw [ht]
    rfl
  have hlatlon : f.trace.latlon = fixes.map (fun x => (x.lon, x.lat)) := by
    rw [htr]
    show st.lon.zip st.lat = _
    rw [hlo, hla]
    show (fixes.map Fix.lon).zip (fixes.map Fix.lat) = _
    rw [List.zip_map']
  have halt : f.trace.alt = fixes.map Fix.alt := by
    rw [htr]
    show st.alt = _
    rw [hal]
    rfl
  have hgps : f.trace.gpsalt = fixes.map Fix.gpsalt := by
    rw [htr]
    show st.gpsalt = _
    rw [hgp]
    rfl
  refine ⟨fixes, hmap, htimes, hlatlon, halt, hgps, ?_, ?_, ?_, ?_⟩
  · rw [htimes, List.length_map, hlen]
  · rw [hlatlon, List.length_map, hlen]
  · rw [halt, List.length_map, hlen]
  · rw [hgps, List.length_map, hlen]

/-- C8: parsing any file with `skip_declaration` requested yields a
flight whose task is empty (no turnpoint codes, empty coordinate dict),
whatever declaration lines the file contains. -/
theorem claim8_skip_declaration_empty_task (curYear : Int)
    (lookupTP : List String → List (String × (ℚ × ℚ)))
    (lines : List String) (f : FlightM)
    (hf : gliderFlight curYear lookupTP lines true = some (.ok f)) :
    f.task = ⟨[], []⟩ := by
  rw [gliderFlight] at hf
  cases hrh : readHeaders curYear lines with
  | none => rw [hrh] at hf; cases hf
  | some r =>
    cases r with
    | error e => rw [hrh] at hf; simp at hf
    | ok pr =>
      obtain ⟨hs, rest⟩ := pr
      rw [hrh] at hf
      have hf2 : gliderFlightAfterHeaders lookupTP hs true rest = .ok f := Option.some.inj hf
      rw [gliderFlightAfterHeaders] at hf2
      cases hpb : parseBody true rest with
      | error e => rw [hpb] at hf2; cases hf2
      | ok st =>
        rw [hpb] at hf2
        have hdecl : st.declared = false :=
          (parseBodyFrom_skip_true rest initB st hpb).1
        have hf3 : (if st.lon.length = 1 then (Except.error Err.valueError : Except Err FlightM)
            else
              match (if st.declared then
                       taskInit lookupTP (pyInterior st.tpNames)
                         (some ((pyInterior st.tpLon).zip (pyInterior st.tpLat)))
                     else taskInit lookupTP [] none) with
              | Except.error e => Except.error e
              | Except.ok task =>
                  Except.ok ⟨hs, ⟨st.times, st.alt, st.gpsalt, st.lon.zip st.lat⟩, task⟩) =
            Except.ok f := hf2
        by_cases hl1 : st.lon.length = 1
        · rw [if_pos hl1] at hf3
          cases hf3
        · rw [if_neg hl1] at hf3
          rw [hdecl] at hf3
          have hf4 : Except.ok
              (⟨hs, ⟨st.times, st.alt, st.gpsalt, st.lon.zip st.lat⟩, ⟨[], []⟩⟩ : FlightM) =
              Except.ok f := hf3
          have hfe := Except.ok.inj hf4
          rw [← hfe]

end Gliding

namespace Gliding

theorem taskInit_some_explicit (lookupTP : List String → List (String × (ℚ × ℚ)))
    (names : List String) (ll : List (ℚ × ℚ))
    (hn : names.length ≠ 0) (hl : ll.isEmpty = false) :
    taskInit lookupTP names (some ll) =
      if names.length ≠ ll.length then .error .inconsistentLengths
      else .ok ⟨names, buildDict (names.zip ll)⟩ := by
  rw [taskInit, if_pos hn]
  show (if ll.isEmpty then (.ok ⟨names, lookupTP names⟩ : Except Err TaskM)
        else if names.length ≠ ll.length then .error .inconsistentLengths
        else .ok ⟨names, buildDict (names.zip ll)⟩) = _
  rw [if_neg (by rw [hl]; intro hh; cases hh)]

/-- C2: a parsed file whose post-header section holds a declaration date
line followed by K turnpoint declaration lines (K ≥ 2, all C lines
counted in file order) yields a task holding exactly the K-2 interior
declared turnpoints, in declared order, paired with their declared
(longitude, latitude) coordinates. -/
theorem claim2_task_interior_turnpoints (curYear : Int)
    (lookupTP : List String → List (String × (ℚ × ℚ)))
    (lines : List String) (hs : List (HKey × HVal)) (rest : List String)
    (f : FlightM) (K : Nat)
    (hrh : readHeaders curYear lines = some (.ok (hs, rest)))
    (hf : gliderFlight curYear lookupTP lines false = some (.ok f))
    (hK : (rest.filter (fun s => firstCharIs s 'C')).length = K + 1)
    (hK2 : 2 ≤ K) :
    ∃ tps, mapEx decodeC ((rest.filter (fun s => firstCharIs s 'C')).drop 1) = .ok tps ∧
      tps.length = K ∧
      f.task.names = (pyInterior tps).map (fun t => t.2.2) ∧
      f.task.names.length = K - 2 ∧
      f.task.latlon = buildDict (((pyInterior tps).map (fun t => t.2.2)).zip
        ((pyInterior tps).map (fun t => (t.2.1, t.1)))) := by
  obtain ⟨st, hpb, hl1, hhd, htr, htk⟩ :=
    gliderFlight_ok_elim curYear lookupTP lines false hs rest f hrh hf
  obtain ⟨_, ih2⟩ := parseBodyFrom_decl rest initB st hpb
  rcases ih2 rfl with ⟨hfe, _, _, _, _⟩ | ⟨tps, hmap, hdecl, hn, hla, hlo⟩
  · exfalso
    rw [hfe] at hK
    have h0 : (0 : Nat) = K + 1 := hK
    omega
  · have htlen : tps.length = K := by
      have := mapEx_ok_length decodeC _ tps hmap
      rw [List.length_drop, hK] at this
      omega
    have hn' : st.tpNames = tps.map (fun t => t.2.2) := by rw [hn]; rfl
    have hla' : st.tpLat = tps.map (fun t => t.1) := by rw [hla]; rfl
    have hlo' : st.tpLon = tps.map (fun t => t.2.1) := by rw [hlo]; rfl
    rw [hdecl] at htk
    have htk2 : taskInit lookupTP (pyInterior st.tpNames)
        (some ((pyInterior st.tpLon).zip (pyInterior st.tpLat))) = .ok f.task := htk
    rw [hn', hla', hlo', pyInterior_map, pyInterior_map, pyInterior_map,
        List.zip_map'] at htk2
    have hitplen : (pyInterior tps).length = K - 2 := by
      rw [pyInterior_length, htlen]
    refine ⟨tps, hmap, htlen, ?_⟩
    rcases Nat.lt_or_ge 2 K with hKgt | hKle
    · have hne : (pyInterior tps).length ≠ 0 := by omega
      rw [taskInit_some_explicit lookupTP _ _
            (by rw [List.length_map]; exact hne)
            (by
              have : ((pyInterior tps).map (fun t => (t.2.1, t.1))).length ≠ 0 := by
                rw [List.length_map]
                exact hne
              cases hq : ((pyInterior tps).map (fun t => (t.2.1, t.1))).isEmpty
              · rfl
              · exact absurd (List.isEmpty_iff.mp hq) (by
                  intro hh
                  rw [hh] at this
                  exact this rfl))] at htk2
      rw [if_neg (by rw [List.length_map, List.length_map]; omega)] at htk2
      have hft := (Except.ok.inj htk2).symm
      refine ⟨by rw [hft], ?_, by rw [hft]⟩
      rw [hft]
      show ((pyInterior tps).map (fun t => t.2.2)).length = K - 2
      rw [List.length_map, hitplen]
    · have hKe : K = 2 := by omega
      have hitpnil : pyInterior tps = [] := by
        rw [← List.length_eq_zero]
        omega
      rw [hitpnil] at htk2
      have htk3 : (Except.ok (⟨[], []⟩ : TaskM) : Except Err TaskM) = .ok f.task := htk2
      have hft := (Except.ok.inj htk3).symm
      rw [hitpnil, hft]
      exact ⟨rfl, by rw [hKe]; rfl, rfl⟩

end Gliding

namespace Gliding

/-- Witness for C3 at the concrete two-fix file `wFile`. -/
theorem claim3_trace_lengths_aligned_witness :
    ∃ fixes, mapEx decodeB (wRest.filter (fun s => firstCharIs s 'B')) = .ok fixes ∧
      wFlight.trace.times = fixes.map (fun x => (x.h, x.mi, x.s)) ∧
      wFlight.trace.latlon = fixes.map (fun x => (x.lon, x.lat)) ∧
      wFlight.trace.alt = fixes.map Fix.alt ∧
      wFlight.trace.gpsalt = fixes.map Fix.gpsalt ∧
      wFlight.trace.times.length = (wRest.filter (fun s => firstCharIs s 'B')).length ∧
      wFlight.trace.latlon.length = (wRest.filter (fun s => firstCharIs s 'B')).length ∧
      wFlight.trace.alt.length = (wRest.filter (fun s => firstCharIs s 'B')).length ∧
      wFlight.trace.gpsalt.length = (wRest.filter (fun s => firstCharIs s 'B')).length :=
  claim3_trace_lengths_aligned 2024 lk0 wFile false wHs wRest wFlight (by rfl)
    (by with_unfolding_all rfl)

/-- Witness for C2 at the concrete file `wDeclFile` (K = 4 declared
turnpoints, 2 kept). -/
theorem claim2_task_interior_turnpoints_witness :
    ∃ tps, mapEx decodeC ((wRestD.filter (fun s => firstCharIs s 'C')).drop 1) = .ok tps ∧
      tps.length = 4 ∧
      wFlightDecl.task.names = (pyInterior tps).map (fun t => t.2.2) ∧
      wFlightDecl.task.names.length = 4 - 2 ∧
      wFlightDecl.task.latlon = buildDict (((pyInterior tps).map (fun t => t.2.2)).zip
        ((pyInterior tps).map (fun t => (t.2.1, t.1)))) :=
  claim2_task_interior_turnpoints 2024 lk0 wDeclFile wHs wRestD wFlightDecl 4
    (by rfl) (by with_unfolding_all rfl) (by rfl) (by decide)

/-- Witness for C8: parsing `wDeclFile` with declarations skipped
yields an empty task. -/
theorem claim8_skip_declaration_empty_task_witness : wFlight.task = ⟨[], []⟩ :=
  claim8_skip_declaration_empty_task 2024 lk0 wDeclFile wFlight (by with_unfolding_all rfl)

end Gliding

namespace Gliding

theorem dUpdate_absent {κ ν : Type _} [DecidableEq κ] (d : List (κ × ν)) (k : κ) (v : ν)
    (h : d.any (fun p => p.1 = k) = false) : dUpdate d k v = d ++ [(k, v)] := by
  rw [dUpdate, if_neg (by rw [h]; intro hh; cases hh)]

theorem dictUpdateAll_fresh {κ ν : Type _} [DecidableEq κ] :
    ∀ (ps d : List (κ × ν)), (d.map Prod.fst ++ ps.map Prod.fst).Nodup →
    dictUpdateAll d ps = d ++ ps := by
  intro ps
  induction ps with
  | nil =>
    intro d _
    rw [dictUpdateAll]
    simp
  | cons p rest ih =>
    intro d hnd
    have hk : p.1 ∉ d.map Prod.fst := by
      intro hmem
      rw [List.nodup_append] at hnd
      exact hnd.2.2 hmem (by simp)
    have hany : d.any (fun q => q.1 = p.1) = false := by
      rw [List.any_eq_false]
      intro q hq hq1
      exact hk (by
        rw [← of_decide_eq_true hq1]
        exact List.mem_map_of_mem Prod.fst hq)
    have hstep : dictUpdateAll d (p :: rest) = dictUpdateAll (d ++ [p]) rest := by
      rw [dictUpdateAll, dictUpdateAll, List.foldl_cons]
      rw [show dUpdate d p.1 p.2 = d ++ [p] from by
        rw [dUpdate_absent d p.1 p.2 hany]]
    rw [hstep, ih (d ++ [p]) (by
      rw [List.map_append]
      have : (d.map Prod.fst ++ [p].map Prod.fst) ++ rest.map Prod.fst =
          d.map Prod.fst ++ ([p].map Prod.fst ++ rest.map Prod.fst) := by
        rw [List.append_assoc]
      rw [this]
      simpa using hnd), List.append_assoc]
    rfl

theorem buildDict_nodup_eq {κ ν : Type _} [DecidableEq κ] (ps : List (κ × ν))
    (h : (ps.map Prod.fst).Nodup) : buildDict ps = ps := by
  rw [buildDict, dictUpdateAll_fresh ps [] (by simpa using h)]
  rfl

theorem lookupA_get_of_nodup {κ ν : Type _} [DecidableEq κ] :
    ∀ (ps : List (κ × ν)), (ps.map Prod.fst).Nodup →
    ∀ i (hi : i < ps.length), lookupA ps (ps.get ⟨i, hi⟩).1 = some (ps.get ⟨i, hi⟩).2 := by
  intro ps
  induction ps with
  | nil =>
    intro _ i hi
    cases hi
  | cons p rest ih =>
    intro hnd i hi
    cases i with
    | zero =>
      show lookupA (p :: rest) p.1 = some p.2
      rw [lookupA, if_pos rfl]
    | succ j =>
      have hj : j < rest.length := by
        have := hi
        simp only [List.length_cons] at this
        omega
      show lookupA (p :: rest) (rest.get ⟨j, hj⟩).1 = some (rest.get ⟨j, hj⟩).2
      have hne : p.1 ≠ (rest.get ⟨j, hj⟩).1 := by
        intro hh
        rw [List.map_cons, List.nodup_cons] at hnd
        exact hnd.1 (by
          rw [hh]
          exact List.mem_map_of_mem Prod.fst (rest.get_mem j hj))
      rw [lookupA, if_neg hne]
      exact ih (by
        rw [List.map_cons, List.nodup_cons] at hnd
        exact hnd.2) j hj

/-- C4 counterexample: an explicit empty code list with an explicit
one-element coordinate list has differing lengths, yet `Task.__init__`
does not raise InconsistentLengths — `if len(self.names):` short-circuits
and an empty task is built. -/
theorem claim4_counterexample :
    ([] : List String).length ≠ [((0 : ℚ), (0 : ℚ))].length ∧
    taskInit lk0 [] (some [((0 : ℚ), (0 : ℚ))]) = .ok ⟨[], []⟩ :=
  ⟨by decide, rfl⟩

/-- C4 (amended): for a NON-EMPTY explicit code list and a NON-EMPTY
explicit coordinate list, differing lengths make Task construction fail
with InconsistentLengths (an empty code list instead builds an empty
task and an empty coordinate list is falsy, triggering reference-file
lookup); in particular a 3-code list with 2 coordinates fails.  When the
lengths match, the dict pairs the codes with their coordinates, and (for
distinct codes) each code looks up to exactly its paired coordinate. -/
theorem claim4_amended (lookupTP : List String → List (String × (ℚ × ℚ)))
    (codes : List String) (coords : List (ℚ × ℚ))
    (hc : codes ≠ []) (hl : coords ≠ []) :
    (codes.length ≠ coords.length →
      taskInit lookupTP codes (some coords) = .error .inconsistentLengths) ∧
    (codes.length = coords.length →
      taskInit lookupTP codes (some coords) = .ok ⟨codes, buildDict (codes.zip coords)⟩) ∧
    (codes.length = coords.length → codes.Nodup →
      ∀ i (hi : i < codes.length) (hj : i < coords.length),
        lookupA (buildDict (codes.zip coords)) (codes.get ⟨i, hi⟩) =
          some (coords.get ⟨i, hj⟩)) ∧
    taskInit lookupTP ["AAA", "BBB", "CCC"]
      (some [((1 : ℚ), (2 : ℚ)), ((3 : ℚ), (4 : ℚ))]) = .error .inconsistentLengths := by
  have hn0 : codes.length ≠ 0 := by
    intro hh
    exact hc (List.length_eq_zero.mp hh)
  have hle : coords.isEmpty = false := by
    cases hq : coords.isEmpty
    · rfl
    · exact absurd (List.isEmpty_iff.mp hq) hl
  refine ⟨?_, ?_, ?_, ?_⟩
  · intro hne
    rw [taskInit_some_explicit lookupTP codes coords hn0 hle, if_pos hne]
  · intro hlen
    rw [taskInit_some_explicit lookupTP codes coords hn0 hle,
        if_neg (fun hh => hh hlen)]
  · intro hlen hnd i hi hj
    have hmf : (codes.zip coords).map Prod.fst = codes :=
      List.map_fst_zip codes coords (le_of_eq hlen)
    have hznd : ((codes.zip coords).map Prod.fst).Nodup := by
      rw [hmf]
      exact hnd
    have hiz : i < (codes.zip coords).length := by
      rw [List.length_zip]
      omega
    have hlk := lookupA_get_of_nodup (codes.zip coords) hznd i hiz
    have hg : (codes.zip coords).get ⟨i, hiz⟩ = (codes.get ⟨i, hi⟩, coords.get ⟨i, hj⟩) := by
      rw [List.get_eq_getElem, List.get_eq_getElem, List.get_eq_getElem, List.getElem_zip]
    rw [buildDict_nodup_eq _ hznd]
    rw [hg] at hlk
    exact hlk
  · rfl

/-- Witness for C4 (amended) at the concrete 3-code / 2-coordinate
input. -/
theorem claim4_amended_witness :
    taskInit lk0 ["AAA", "BBB", "CCC"]
      (some [((1 : ℚ), (2 : ℚ)), ((3 : ℚ), (4 : ℚ))]) = .error .inconsistentLengths :=
  (claim4_amended lk0 ["AAA", "BBB", "CCC"] [((1 : ℚ), (2 : ℚ)), ((3 : ℚ), (4 : ℚ))]
    (by intro h; cases h) (by intro h; cases h)).2.2.2

theorem foldlMax_gt : ∀ (xs : List ℚ) (x c : ℚ),
    xs.foldl max x > c ↔ (x > c ∨ ∃ y ∈ xs, y > c) := by
  intro xs
  induction xs with
  | nil =>
    intro x c
    simp
  | cons y ys ih =>
    intro x c
    rw [List.foldl_cons, ih (max x y) c]
    constructor
    · rintro (h | h)
      · rcases lt_max_iff.mp h with h | h
        · exact Or.inl h
        · exact Or.inr ⟨y, by simp, h⟩
      · obtain ⟨z, hz, hzc⟩ := h
        exact Or.inr ⟨z, by simp [hz], hzc⟩
    · rintro (h | ⟨z, hz, hzc⟩)
      · exact Or.inl (lt_max_iff.mpr (Or.inl h))
      · rcases List.mem_cons.mp hz with rfl | hz'
        · exact Or.inl (lt_max_iff.mpr (Or.inr hzc))
        · exact Or.inr ⟨z, hz', hzc⟩

theorem stepDistSqsL_length : ∀ (pts : List (ℚ × ℚ)),
    (stepDistSqsL pts).length = pts.length - 1
  | [] => rfl
  | [_] => rfl
  | p :: q :: rest => by
    show (distSq p q :: stepDistSqsL (q :: rest)).length = _
    rw [List.length_cons, stepDistSqsL_length (q :: rest)]
    simp only [List.length_cons]
    omega

theorem stepDistSqsL_get : ∀ (pts : List (ℚ × ℚ)) (i : Nat) (hi : i + 1 < pts.length)
    (hh : i < (stepDistSqsL pts).length),
    (stepDistSqsL pts).get ⟨i, hh⟩ =
      distSq (pts.get ⟨i, Nat.lt_of_succ_lt hi⟩) (pts.get ⟨i + 1, hi⟩)
  | [], _, _, hh => by cases hh
  | [a], i, hi, hh => by
    exfalso
    simp only [List.length_cons, List.length_nil] at hi
    omega
  | p :: q :: rest, 0, hi, hh => rfl
  | p :: q :: rest, i + 1, hi, hh =>
    stepDistSqsL_get (q :: rest) i
      (by simp only [List.length_cons] at hi ⊢; omega)
      (by
        have := hh
        rw [stepDistSqsL_length] at this ⊢
        simp only [List.length_cons] at this ⊢
        omega)

theorem stepDistSqs_mem (proj : ℚ × ℚ → ℚ × ℚ) (tr : TraceM) (y : ℚ) :
    y ∈ stepDistSqs proj tr ↔
      ∃ i, ∃ hi : i + 1 < tr.latlon.length,
        y = distSq (proj (tr.latlon.get ⟨i, Nat.lt_of_succ_lt hi⟩))
                   (proj (tr.latlon.get ⟨i + 1, hi⟩)) := by
  have hmap : ∀ (j : Nat) (hj : j < tr.latlon.length) (hjm : j < (tr.latlon.map proj).length),
      (tr.latlon.map proj).get ⟨j, hjm⟩ = proj (tr.latlon.get ⟨j, hj⟩) := by
    intro j hj hjm
    rw [List.get_eq_getElem, List.get_eq_getElem, List.getElem_map]
  rw [stepDistSqs, List.mem_iff_get]
  constructor
  · rintro ⟨⟨i, hh⟩, hget⟩
    have hi : i + 1 < tr.latlon.length := by
      have hl := hh
      rw [stepDistSqsL_length, List.length_map] at hl
      omega
    have him : i + 1 < (tr.latlon.map proj).length := by
      rw [List.length_map]
      omega
    refine ⟨i, hi, ?_⟩
    rw [← hget, stepDistSqsL_get (tr.latlon.map proj) i him hh]
    rw [hmap i (Nat.lt_of_succ_lt hi) (Nat.lt_of_succ_lt him), hmap (i + 1) hi him]
  · rintro ⟨i, hi, hy⟩
    have hh : i < (stepDistSqsL (tr.latlon.map proj)).length := by
      rw [stepDistSqsL_length, List.length_map]
      omega
    have him : i + 1 < (tr.latlon.map proj).length := by
      rw [List.length_map]
      omega
    refine ⟨⟨i, hh⟩, ?_⟩
    rw [stepDistSqsL_get (tr.latlon.map proj) i him hh, hy]
    rw [hmap i (Nat.lt_of_succ_lt hi) (Nat.lt_of_succ_lt him), hmap (i + 1) hi him]

/-- C6: on a trace of at least two fixes, `check_points` raises the
data-quality warning exactly when some consecutive-vertex step in the
projected planar frame exceeds 2000 m (the comparison is stated on
squared distances, equivalent to comparing the root with 2000), and
otherwise returns normally; it is a pure function that never alters the
trace, and the parse loop of `GliderFlight.__init__` never invokes it,
so the condition only ever surfaces to the caller of `check_points`. -/
theorem claim6_continuity_check (proj : ℚ × ℚ → ℚ × ℚ) (tr : TraceM)
    (h2 : 2 ≤ tr.latlon.length) :
    (checkPoints proj tr = .error .dataQualityWarning ↔
      ∃ i, ∃ hi : i + 1 < tr.latlon.length,
        distSq (proj (tr.latlon.get ⟨i, Nat.lt_of_succ_lt hi⟩))
               (proj (tr.latlon.get ⟨i + 1, hi⟩)) > 2000 ^ 2) ∧
    (checkPoints proj tr = .error .dataQualityWarning ∨ checkPoints proj tr = .ok ()) := by
  have hlen1 : (stepDistSqs proj tr).length = tr.latlon.length - 1 := by
    rw [stepDistSqs, stepDistSqsL_length, List.length_map]
  cases heq : stepDistSqs proj tr with
  | nil =>
    exfalso
    rw [heq] at hlen1
    have h0 : (0 : Nat) = tr.latlon.length - 1 := hlen1
    omega
  | cons x xs =>
    have hnp : npMax (stepDistSqs proj tr) = .ok (xs.foldl max x) := by
      rw [heq]
      rfl
    have hcp : checkPoints proj tr =
        (if xs.foldl max x > 2000 ^ 2 then .error .dataQualityWarning else .ok ()) := by
      rw [checkPoints, hnp]
    constructor
    · rw [hcp]
      by_cases hm : xs.foldl max x > 2000 ^ 2
      · rw [if_pos hm]
        constructor
        · intro _
          have hor : x > 2000 ^ 2 ∨ ∃ y ∈ xs, y > 2000 ^ 2 :=
            (foldlMax_gt xs x _).mp hm
          have hy : ∃ y ∈ stepDistSqs proj tr, y > 2000 ^ 2 := by
            rw [heq]
            rcases hor with h | ⟨y, hy, hyc⟩
            · exact ⟨x, by simp, h⟩
            · exact ⟨y, by simp [hy], hyc⟩
          obtain ⟨y, hymem, hyc⟩ := hy
          obtain ⟨i, hi, hyeq⟩ := (stepDistSqs_mem proj tr y).mp hymem
          exact ⟨i, hi, by rw [← hyeq]; exact hyc⟩
        · intro _
          rfl
      · rw [if_neg hm]
        constructor
        · intro hcontra
          cases hcontra
        · rintro ⟨i, hi, hgt⟩
          exfalso
          apply hm
          have hymem : distSq (proj (tr.latlon.get ⟨i, Nat.lt_of_succ_lt hi⟩))
              (proj (tr.latlon.get ⟨i + 1, hi⟩)) ∈ stepDistSqs proj tr :=
            (stepDistSqs_mem proj tr _).mpr ⟨i, hi, rfl⟩
          rw [heq] at hymem
          rcases List.mem_cons.mp hymem with hx | hxs
          · exact (foldlMax_gt xs x _).mpr (Or.inl (by rw [← hx]; exact hgt))
          · exact (foldlMax_gt xs x _).mpr (Or.inr ⟨_, hxs, hgt⟩)
    · rw [hcp]
      by_cases hm : xs.foldl max x > 2000 ^ 2
      · rw [if_pos hm]
        exact Or.inl rfl
      · rw [if_neg hm]
        exact Or.inr rfl

theorem claim6_continuity_check_witness :
    checkPoints (fun p => p) wBadTrace = .error .dataQualityWarning :=
  (claim6_continuity_check (fun p => p) wBadTrace (by decide)).1.mpr
    ⟨0, by decide, by with_unfolding_all decide⟩

theorem segLen_symm (p q : ℚ × ℚ) : segLen p q = segLen q p := by
  rw [segLen, segLen]
  have h : distSq p q = distSq q p := by
    rw [distSq, distSq]
    ring
  rw [h]

theorem pathLength_append_single : ∀ (xs : List (ℚ × ℚ)) (a : ℚ × ℚ),
    pathLength (xs ++ [a]) = pathLength xs + tailSegLen xs a := by
  intro xs
  induction xs with
  | nil =>
    intro a
    show pathLength [a] = pathLength [] + tailSegLen [] a
    rw [show pathLength [a] = 0 from rfl, show pathLength ([] : List (ℚ × ℚ)) = 0 from rfl,
        show tailSegLen [] a = 0 from rfl]
    ring
  | cons x xs ih =>
    intro a
    cases xs with
    | nil =>
      show pathLength [x, a] = pathLength [x] + tailSegLen [x] a
      rw [show pathLength [x, a] = segLen x a + pathLength [a] from rfl,
          show pathLength [a] = 0 from rfl, show pathLength [x] = 0 from rfl,
          show tailSegLen [x] a = segLen x a from rfl]
      ring
    | cons y ys =>
      show pathLength (x :: y :: (ys ++ [a])) = pathLength (x :: y :: ys) + tailSegLen (x :: y :: ys) a
      rw [show pathLength (x :: y :: (ys ++ [a])) =
            segLen x y + pathLength (y :: (ys ++ [a])) from rfl,
          show pathLength (x :: y :: ys) = segLen x y + pathLength (y :: ys) from rfl,
          show (y :: (ys ++ [a])) = (y :: ys) ++ [a] from rfl,
          ih a,
          show tailSegLen (x :: y :: ys) a = tailSegLen (y :: ys) a from by
            rw [tailSegLen, tailSegLen, List.getLast?_cons_cons]]
      ring

theorem pathLength_reverse : ∀ (l : List (ℚ × ℚ)), pathLength l.reverse = pathLength l := by
  intro l
  induction l with
  | nil => rfl
  | cons x xs ih =>
    rw [List.reverse_cons, pathLength_append_single, ih]
    have htl : tailSegLen xs.reverse x =
        (match xs.head? with
         | none => (0 : ℝ)
         | some y => segLen y x) := by
      rw [tailSegLen, List.getLast?_reverse]
    cases xs with
    | nil =>
      rw [htl]
      show pathLength [] + 0 = pathLength [x]
      rw [show pathLength ([] : List (ℚ × ℚ)) = 0 from rfl,
          show pathLength [x] = 0 from rfl]
      ring
    | cons y ys =>
      rw [htl]
      show pathLength (y :: ys) + segLen y x = pathLength (x :: y :: ys)
      rw [show pathLength (x :: y :: ys) = segLen x y + pathLength (y :: ys) from rfl,
          segLen_symm]
      ring

/-- C9: the total projected planar distance of a closed-loop trace
(first vertex equal to the last) is unchanged when the vertex order is
reversed — in exact real arithmetic the two sums of segment lengths are
equal. -/
theorem claim9_distance_reverse_invariant (proj : ℚ × ℚ → ℚ × ℚ) (tr trR : TraceM)
    (hrev : trR.latlon = tr.latlon.reverse)
    (_hne : tr.latlon ≠ []) (_hloop : tr.latlon.head? = tr.latlon.getLast?) :
    distance proj trR = distance proj tr := by
  rw [distance, distance, hrev, List.map_reverse, pathLength_reverse]

/-- Witness for C9 at a concrete unit-triangle loop. -/
theorem claim9_distance_reverse_invariant_witness :
    distance (fun p => p) wLoopTraceR = distance (fun p => p) wLoopTrace :=
  claim9_distance_reverse_invariant (fun p => p) wLoopTrace wLoopTraceR
    (by rfl) (by intro hcontra; cases hcontra) (by rfl)

end Gliding
